import Mathlib

/-!
Verification of the tar archive parser in `src/untar_stripped.py`.

The Python program is shallowly embedded: Python `bytes` values become
`List Nat` (one natural per byte), `str` values are modelled by their
underlying byte sequences (UTF-8 decoding is the identity on the ASCII
data these claims exercise), the archive file is a flat byte list that
is read through an explicit position, and every Python exception that
the parser can raise is an explicit constructor of `PyErr`.
-/

set_option maxRecDepth 8000

deriving instance DecidableEq for Except

namespace Untar

/-- Python `bytes` (and, in this model, `str`) values: a list of byte values. -/
abbrev Bytes : Type := List Nat

/-- Byte sequence of an ASCII string literal. -/
def strBytes (s : String) : Bytes := s.toList.map (fun c => c.toNat)

/-- One `f.read(n)` at position `pos` of a file: returns up to `n` bytes
(the empty list at or past end-of-file), exactly as Python's file read. -/
def fread (file : Bytes) (pos n : Nat) : Bytes := (file.drop pos).take n

/-- Python `b.strip(b'\x00')`: removes leading and trailing NUL bytes. -/
def stripNul (b : Bytes) : Bytes :=
  ((b.dropWhile (fun x => x == 0)).reverse.dropWhile (fun x => x == 0)).reverse

/-- The byte values Python's `int(str)` treats as ignorable whitespace. -/
def isPySpace (b : Nat) : Bool := b == 32 || b == 9 || b == 10 || b == 13 || b == 11 || b == 12

/-- Octal digit test, on byte values. -/
def isOctDigit (b : Nat) : Bool := 48 ≤ b && b ≤ 55

/-- Value of a nonempty all-octal-digit byte string, `none` otherwise. -/
def octCore (l : Bytes) : Option Nat :=
  if l = [] then none
  else if l.all isOctDigit then some (l.foldl (fun a b => 8 * a + (b - 48)) 0)
  else none

/-- Python `int(s, 8)` on the ASCII strings the tar format stores: optional
surrounding whitespace, an optional sign, then octal digits; `none` models
the `ValueError` raised on anything else. -/
def parseOctal (s : Bytes) : Option Int :=
  let t := ((s.dropWhile isPySpace).reverse.dropWhile isPySpace).reverse
  match t with
  | 45 :: rest => (octCore rest).map (fun n => -(n : Int))
  | 43 :: rest => (octCore rest).map (fun n => (n : Int))
  | _ => (octCore t).map (fun n => (n : Int))

/-- Python exceptions the parser can raise, one constructor per raise site:
`valueError` is `int()` on a non-octal field, `keyErrorType` a miss in
`_FILE_TYPES`, `keyErrorIndex` a miss in `_file_to_position` (the spec's
`UnknownEntry`), `typeError` a wrong-arity `FileHeader(*...)` call or other
type misuse, `structError` a `struct.unpack` size mismatch, and `osError` a
seek to a negative offset or an exclusive-create on an existing path. -/
inductive PyErr where
  | valueError
  | keyErrorType
  | keyErrorIndex
  | typeError
  | structError
  | osError
deriving DecidableEq

/-- Runtime values held in the decoded header list: Python `str`, `int`,
`datetime` and `None`. -/
inductive PyVal where
  | vstr (s : Bytes)
  | vint (n : Int)
  | vdatetime (n : Int)
  | vnone
deriving DecidableEq

/-- The `FileHeader` NamedTuple of the source: nine required fields and
eight optional fields defaulting to `None`.  The source's field `prefix`
is called `prefix_field` here because `prefix` is a Lean keyword. -/
structure FileHeader where
  file_name : PyVal
  access_mod : PyVal
  user_id : PyVal
  group_id : PyVal
  size : PyVal
  last_mod_time : PyVal
  check_sum : PyVal
  file_type : PyVal
  link_name : PyVal
  magic : PyVal
  version : PyVal
  user_name : PyVal
  group_name : PyVal
  dev_major : PyVal
  dev_minor : PyVal
  prefix_field : PyVal
  other : PyVal
deriving DecidableEq

/-- `FileHeader(*l)`: Python accepts 9 to 17 positional arguments (missing
optional fields default to `None`) and raises `TypeError` otherwise. -/
def FileHeader.fromList (l : List PyVal) : Option FileHeader :=
  if 9 ≤ l.length ∧ l.length ≤ 17 then
    some ⟨l.getD 0 .vnone, l.getD 1 .vnone, l.getD 2 .vnone, l.getD 3 .vnone,
          l.getD 4 .vnone, l.getD 5 .vnone, l.getD 6 .vnone, l.getD 7 .vnone,
          l.getD 8 .vnone, l.getD 9 .vnone, l.getD 10 .vnone, l.getD 11 .vnone,
          l.getD 12 .vnone, l.getD 13 .vnone, l.getD 14 .vnone, l.getD 15 .vnone,
          l.getD 16 .vnone⟩
  else none

/-- Cut a byte string into consecutive fields of the given widths
(the `NNs` items of a `struct` format string). -/
def splitWidths : List Nat → Bytes → List Bytes
  | [], _ => []
  | w :: ws, b => b.take w :: splitWidths ws (b.drop w)

/-- `struct.unpack(_HEADER_FMT1, block)`: requires exactly 512 bytes and
produces the ten fixed-region fields (the last one is the 255-byte tail). -/
def unpackFmt1 (block : Bytes) : Option (List Bytes) :=
  if block.length = 512 then
    some (splitWidths [100, 8, 8, 8, 12, 12, 8, 1, 100, 255] block)
  else none

/-- `TarParser.unpack_second_part`: re-unpacks the 255-byte tail with
`_HEADER_FMT2` when it starts with `b"ustar "`, with `_HEADER_FMT3`
otherwise, and appends the result to the nine fixed fields. -/
def unpack_second_part (header : List Bytes) : List Bytes :=
  let tl := (header.getLast?).getD []
  if tl.take 6 = strBytes ("ustar ") then
    header.dropLast ++ splitWidths [6, 2, 32, 32, 8, 8, 155, 12] tl
  else
    header.dropLast ++ splitWidths [6, 2, 32, 32, 8, 8, 12, 12, 112] tl

/-- The `_FILE_TYPES` table, keyed by the one-byte typeflag field. -/
def fileTypes : List (Bytes × Bytes) :=
  [([48], strBytes ("Regular file")),
   ([49], strBytes ("Hard link")),
   ([50], strBytes ("Symbolic link")),
   ([51], strBytes ("Character device node")),
   ([52], strBytes ("Block device node")),
   ([53], strBytes ("Directory")),
   ([54], strBytes ("FIFO node")),
   ([55], strBytes ("Reserved")),
   ([68], strBytes ("Directory entry")),
   ([75], strBytes ("Long linkname")),
   ([76], strBytes ("Long pathname")),
   ([77], strBytes ("Continue of last file")),
   ([78], strBytes ("Rename/symlink command")),
   ([83], strBytes ("\x60sparse\x27 regular file")),
   ([86], strBytes ("\x60name\x27 is tape/volume header name"))]

/-- Python `dict` lookup on an association list (later bindings are placed
in front by the builders below, so the first hit is the live one). -/
def lookupAssoc {α : Type} (l : List (Bytes × α)) (k : Bytes) : Option α :=
  match l with
  | [] => none
  | (k', v) :: rest => if k' = k then some v else lookupAssoc rest k

/-- `TarParser.decode_to_int_from_octal(header, decoded_header, *indexes)`:
re-parses `header[i].strip(b'\x00')` as octal for each index, writing the
`int` into the decoded list.  `.ok none` models the bare `return` taken when
an index exceeds `len(header)` (the function then returns `None`);
`.error .valueError` models `int()` failing. -/
def decode_to_int_from_octal (header : List Bytes) (decoded : List PyVal) :
    List Nat → Except PyErr (Option (List PyVal))
  | [] => .ok (some decoded)
  | i :: is =>
    if header.length < i then .ok none
    else
      match parseOctal (stripNul (header.getD i [])) with
      | none => .error .valueError
      | some v => decode_to_int_from_octal header (decoded.set i (.vint v)) is

/-- `TarParser.get_file_data(start_byte, filename)`: seek to `start_byte`,
read one 512-byte block, unpack both parts, NUL-strip and decode every
field, convert fields 1-5 to ints, field 5 to a datetime, look field 7 up
in `_FILE_TYPES`, overwrite field 0 with `filename`, and build the
`FileHeader`. -/
def get_file_data (file : Bytes) (start : Int) (filename : Bytes) :
    Except PyErr FileHeader :=
  if start < 0 then .error .osError
  else
    let block := fread file start.toNat 512
    match unpackFmt1 block with
    | none => .error .structError
    | some h1 =>
      let header := unpack_second_part h1
      let decoded0 : List PyVal := header.map (fun b => .vstr (stripNul b))
      match decode_to_int_from_octal header decoded0 [1, 2, 3, 4, 5] with
      | .error e => .error e
      | .ok none => .error .typeError
      | .ok (some d1) =>
        match d1.getD 5 .vnone with
        | .vint v =>
          let d2 := d1.set 5 (.vdatetime v)
          match lookupAssoc fileTypes (header.getD 7 []) with
          | none => .error .keyErrorType
          | some t =>
            let d3 := (d2.set 7 (.vstr t)).set 0 (.vstr filename)
            match FileHeader.fromList d3 with
            | none => .error .typeError
            | some fh => .ok fh
        | _ => .error .typeError

/-- A 512-byte block of NUL bytes (`_NULL_BLOCK`). -/
def NULL_BLOCK : Bytes := List.replicate 512 0

/-- Python truthiness of the pending long-name variable: `None` and the
empty string are falsy. -/
def isTruthy : Option Bytes → Bool
  | none => false
  | some s => !s.isEmpty

/-- `math.ceil(size / 512)` on the integers the 12-byte octal field can
hold (the float division is exact there, so integer ceiling is faithful). -/
def ceilBlocks (size : Int) : Int := -((-size).fdiv 512)

/-- Result of one `get_names` run: the yielded names in order, the
`_file_to_position` bindings (latest first), whether the generator finished
without raising, and the number of loop iterations executed. -/
structure ScanOut where
  names : List Bytes
  index : List (Bytes × Int)
  ok : Bool
  iters : Nat
deriving DecidableEq

/-- One run of the `for i in range(1000)` loop body of
`TarParser.get_names`, with `fuel` iterations left, the file position,
the `was_first_zero_block` flag and the pending `long_link_name`.
A run that stops (second zero block, EOF, or fuel out) reports `ok`;
a run that raises (`int()` on a bad size field, or a seek to a negative
offset) reports `ok := false` after the names already yielded. -/
def scanGo (file : Bytes) : Nat → Nat → Bool → Option Bytes → ScanOut
  | 0, _, _, _ => ⟨[], [], true, 0⟩
  | fuel + 1, pos, wasZero, pending =>
    let block := fread file pos 512
    let pos1 := pos + block.length
    if block = NULL_BLOCK ∨ block = [] then
      if wasZero ∨ block = [] then ⟨[], [], true, 1⟩
      else
        let r := scanGo file fuel pos1 true pending
        ⟨r.names, r.index, r.ok, r.iters + 1⟩
    else if (block.drop 156).take 1 = [76] then
      let payload := fread file pos1 512
      let pos2 := pos1 + payload.length
      let r := scanGo file fuel pos2 false (some (stripNul payload))
      ⟨r.names, r.index, r.ok, r.iters + 1⟩
    else
      let nmPend : Bytes × Option Bytes :=
        if isTruthy pending then (pending.getD [], none)
        else (stripNul (block.take 100), pending)
      let name := nmPend.1
      let offset : Int := (pos1 : Int) - 512
      match parseOctal (stripNul ((block.drop 124).take 12)) with
      | none => ⟨[name], [(name, offset)], false, 1⟩
      | some size =>
        let target : Int := (pos1 : Int) + 512 * ceilBlocks size
        if target < 0 then ⟨[name], [(name, offset)], false, 1⟩
        else
          let r := scanGo file fuel target.toNat false nmPend.2
          ⟨name :: r.names, r.index ++ [(name, offset)], r.ok, r.iters + 1⟩

/-- `TarParser.get_names`: the whole scan, from position 0, at most 1000
loop iterations. -/
def get_names (file : Bytes) : ScanOut := scanGo file 1000 0 false none

/-- Python `f.read(n)` with an `int` argument: a negative count reads to
end-of-file. -/
def pyRead (file : Bytes) (pos : Nat) (n : Int) : Bytes :=
  if n < 0 then file.drop pos else (file.drop pos).take n.toNat

/-- `TarParser.get_file_bytes(file_data)`: look the name up in
`_file_to_position`, seek 512 past the header, read `size` bytes. -/
def get_file_bytes (file : Bytes) (idx : List (Bytes × Int)) (fh : FileHeader) :
    Except PyErr Bytes :=
  match fh.file_name with
  | .vstr nm =>
    match lookupAssoc idx nm with
    | none => .error .keyErrorIndex
    | some p =>
      let start : Int := p + 512
      if start < 0 then .error .osError
      else
        match fh.size with
        | .vint n => .ok (pyRead file start.toNat n)
        | _ => .error .typeError
  | _ => .error .keyErrorIndex

/-- One element of the list `file_stat` returns: the source builds mostly
`(label, value)` pairs but one `(label, value, mapping)` triple. -/
inductive StatField where
  | pair (label : Bytes) (v : PyVal)
  | triple (label : Bytes) (v : PyVal) (m : List (Bytes × Int))
deriving DecidableEq

/-- `TarParser.file_stat(filename)`: look the offset up in
`_file_to_position` (a miss is the spec's `UnknownEntry`), decode the
header there, and return the fixed info list.  The first element is the
3-tuple `('Filename', data.file_name, self._file_to_position)` exactly as
in the source. -/
def file_stat (file : Bytes) (idx : List (Bytes × Int)) (filename : Bytes) :
    Except PyErr (List StatField) :=
  match lookupAssoc idx filename with
  | none => .error .keyErrorIndex
  | some p =>
    match get_file_data file p filename with
    | .error e => .error e
    | .ok data =>
      .ok [.triple (strBytes ("Filename")) data.file_name idx,
           .pair (strBytes ("Type")) data.file_type,
           .pair (strBytes ("Mode")) data.access_mod,
           .pair (strBytes ("UID")) data.user_id,
           .pair (strBytes ("GID")) data.group_id,
           .pair (strBytes ("Size")) data.size,
           .pair (strBytes ("Modification time")) data.last_mod_time,
           .pair (strBytes ("Checksum")) data.check_sum,
           .pair (strBytes ("User name")) data.user_name,
           .pair (strBytes ("Group name")) data.group_name]

/-- An entry of the modelled destination filesystem. -/
inductive FSEntry where
  | dirE
  | fileE (content : Bytes)
deriving DecidableEq

/-- The destination filesystem: newest binding first. -/
abbrev FS : Type := List (Bytes × FSEntry)

/-- `os.path.exists(dest + '/' + name)`. -/
def fsExists (fs : FS) (p : Bytes) : Bool := (lookupAssoc fs p).isSome

/-- The body of the `extract` loop (source lines 146-155) for one entry
whose header `data` has already been decoded: directories are created if
absent, regular files are written with `'xb'` (exclusive create, fails on
an existing path) when the path does not exist and with `'wb'`
(truncate-write) when it does, and every other type is skipped. -/
def extract_entry (file : Bytes) (idx : List (Bytes × Int)) (fs : FS)
    (dest : Bytes) (data : FileHeader) : Except PyErr FS :=
  match data.file_name with
  | .vstr nm =>
    let path := dest ++ [47] ++ nm
    if data.file_type = .vstr (strBytes ("Directory")) then
      if fsExists fs path then .ok fs
      else .ok ((path, .dirE) :: fs)
    else if data.file_type = .vstr (strBytes ("Regular file")) then
      if fsExists fs path then
        match get_file_bytes file idx data with
        | .error e => .error e
        | .ok payload => .ok ((path, .fileE payload) :: fs)
      else
        if fsExists fs path then .error .osError
        else
          match get_file_bytes file idx data with
          | .error e => .error e
          | .ok payload => .ok ((path, .fileE payload) :: fs)
    else .ok fs
  | _ => .error .typeError

/-! Concrete archives used by the theorems below. -/

/-- Zero-pad a field to `n` bytes, as a tar writer does. -/
def padZ (n : Nat) (l : Bytes) : Bytes := l ++ List.replicate (n - l.length) 0

/-- A valid ustar header block: name `"f"`, mode `0000755`, uid, gid, size
and mtime `0`, checksum text `5492`, typeflag `'0'`, magic `"ustar "`. -/
def ustarHdr : Bytes :=
  padZ 100 (strBytes ("f")) ++ padZ 8 (strBytes ("0000755")) ++ padZ 8 (strBytes ("0")) ++
  padZ 8 (strBytes ("0")) ++ padZ 12 (strBytes ("0")) ++ padZ 12 (strBytes ("0")) ++
  padZ 8 (strBytes ("5492")) ++ [48] ++ List.replicate 100 0 ++
  (strBytes ("ustar ") ++ padZ 249 (strBytes ("00")))

/-- A one-entry archive: the ustar header then the two-zero-block trailer. -/
def tarA : Bytes := ustarHdr ++ NULL_BLOCK ++ NULL_BLOCK

/-- The same header with a pre-ustar (all-NUL) tail. -/
def preHdr : Bytes :=
  padZ 100 (strBytes ("f")) ++ padZ 8 (strBytes ("0000755")) ++ padZ 8 (strBytes ("0")) ++
  padZ 8 (strBytes ("0")) ++ padZ 12 (strBytes ("0")) ++ padZ 12 (strBytes ("0")) ++
  padZ 8 (strBytes ("5492")) ++ [48] ++ List.replicate 100 0 ++ List.replicate 255 0

/-- The ustar header with the unrecognized typeflag byte `'9'`. -/
def hdr9 : Bytes :=
  padZ 100 (strBytes ("f")) ++ padZ 8 (strBytes ("0000755")) ++ padZ 8 (strBytes ("0")) ++
  padZ 8 (strBytes ("0")) ++ padZ 12 (strBytes ("0")) ++ padZ 12 (strBytes ("0")) ++
  padZ 8 (strBytes ("5492")) ++ [57] ++ List.replicate 100 0 ++
  (strBytes ("ustar ") ++ padZ 249 (strBytes ("00")))

/-- A minimal header block for scan tests: only the name, size and typeflag
regions are populated (the scan inspects nothing else). -/
def mkScanHeader (nm sz : Bytes) (tf : Nat) : Bytes :=
  padZ 100 nm ++ List.replicate 24 0 ++ padZ 12 sz ++ List.replicate 20 0 ++ [tf] ++
  List.replicate 355 0

/-- Unaligned archive content for the C6 counterexample: one size-0 header
followed by 100 stray zero bytes, so the archive is not a whole number of
512-byte blocks. -/
def cC6 : Bytes := mkScanHeader (strBytes ("f")) (strBytes ("0")) 48 ++ List.replicate 100 0

/-- Whether a decode result is a successfully built record. -/
def exceptIsOk {α : Type} : Except PyErr α → Bool
  | .ok _ => true
  | .error _ => false

/-- The Python exceptions the spec's abstract `MalformedHeader` error
covers: a bad octal digit (`ValueError`), an unrecognized typeflag byte
(the `_FILE_TYPES` `KeyError`), and a block-layout size mismatch
(`struct.error`). -/
def isMalformed : PyErr → Bool
  | .valueError => true
  | .keyErrorType => true
  | .structError => true
  | _ => false

/-- Whether an operation failed with a `MalformedHeader`-class error. -/
def failsMalformed {α : Type} : Except PyErr α → Bool
  | .error e => isMalformed e
  | .ok _ => false

/-- The access-mode field of a successful decode. -/
def modeOf : Except PyErr FileHeader → Option PyVal
  | .ok fh => some fh.access_mod
  | .error _ => none

/-- A `FileHeader` as `extract`'s loop sees it for a regular file of
declared size 10 named `"a"` (used by the C2 theorems). -/
def c2fh : FileHeader :=
  ⟨.vstr (strBytes ("a")), .vnone, .vnone, .vnone, .vint 10, .vnone, .vnone, .vnone, .vnone,
   .vnone, .vnone, .vnone, .vnone, .vnone, .vnone, .vnone, .vnone⟩

/-- A 515-byte archive: the entry at offset 0 has only 3 payload bytes on
disk although its header declares size 10. -/
def c2file : Bytes := List.replicate 515 7

/-- Index binding the name `"a"` to header offset 0. -/
def c2idx : List (Bytes × Int) := [(strBytes ("a"), 0)]

/-- A decoded regular-file header named `"a"` with declared size 5,
used by the C9 witness. -/
def c9data : FileHeader :=
  ⟨.vstr (strBytes ("a")), .vnone, .vnone, .vnone, .vint 5, .vnone, .vnone,
   .vstr (strBytes ("Regular file")), .vnone,
   .vnone, .vnone, .vnone, .vnone, .vnone, .vnone, .vnone, .vnone⟩

/-- The tail fields `unpack_second_part` appends: eight for the ustar
layout, nine for the pre-ustar layout. -/
def uspTail (tl : Bytes) : List Bytes :=
  if tl.take 6 = strBytes ("ustar ") then splitWidths [6, 2, 32, 32, 8, 8, 155, 12] tl
  else splitWidths [6, 2, 32, 32, 8, 8, 12, 12, 112] tl

/-- The GNU long-pathname extension block used by the long-name
theorems: name `"longlink"`, typeflag `'L'` (byte 76). -/
def LBLK : Bytes :=
  padZ 100 (strBytes ("longlink")) ++ padZ 8 (strBytes ("0")) ++ padZ 8 (strBytes ("0")) ++
  padZ 8 (strBytes ("0")) ++ padZ 12 (strBytes ("0")) ++ padZ 12 (strBytes ("0")) ++
  padZ 8 [] ++ [76] ++ List.replicate 355 0

/-- C3: the mode field is not kept as octal text: the code routes index 1
through `decode_to_int_from_octal`, so a stored mode of `b"0000755"`
reaches the `FileHeader` as the decimal integer 493 and `file_stat`
displays that integer, contradicting the claim (and the `file_stat`
docstring, whose example shows `('Mode', '0000755')`). -/
theorem c3_mode_decoded_to_decimal_int :
    modeOf (get_file_data tarA 0 (strBytes ("f"))) = some (.vint 493) ∧
    .pair (strBytes ("Mode")) (.vint 493) ∈
      ((file_stat tarA (get_names tarA).index (strBytes ("f"))).toOption.getD []) ∧
    (PyVal.vint 493) ≠ .vstr (strBytes ("0000755")) := by
  refine ⟨by decide, by decide, by decide⟩

/-- C4: `file_stat` does return the ten display fields in the fixed order,
but its first element is the 3-tuple
`('Filename', data.file_name, self._file_to_position)` - it carries the
whole offset mapping as a third component - so not every entry is a
`(label, value)` pair, contradicting the claim and the docstring example. -/
theorem c4_stat_first_field_is_triple :
    file_stat tarA (get_names tarA).index (strBytes ("f")) =
      .ok [.triple (strBytes ("Filename")) (.vstr (strBytes ("f"))) [(strBytes ("f"), 0)],
           .pair (strBytes ("Type")) (.vstr (strBytes ("Regular file"))),
           .pair (strBytes ("Mode")) (.vint 493),
           .pair (strBytes ("UID")) (.vint 0),
           .pair (strBytes ("GID")) (.vint 0),
           .pair (strBytes ("Size")) (.vint 0),
           .pair (strBytes ("Modification time")) (.vdatetime 0),
           .pair (strBytes ("Checksum")) (.vstr (strBytes ("5492"))),
           .pair (strBytes ("User name")) (.vstr []),
           .pair (strBytes ("Group name")) (.vstr [])] := by
  decide

/-- C2, counterexample: the entry named `"a"` declares size 10 but only 3
bytes remain past its header; `get_file_bytes` returns the 3 available
bytes with no error, instead of failing with a truncation error. -/
theorem c2_short_read_counterexample :
    get_file_bytes c2file c2idx c2fh = .ok (List.replicate 3 7) ∧
    (List.replicate 3 7 : Bytes).length = 3 ∧ c2fh.size = .vint 10 := by
  refine ⟨by decide, by decide, by decide⟩

/-- C2, amended: `get_file_bytes` seeks to `offset + 512` and reads *up
to* `size` bytes: exactly `size` of them when that many remain in the
archive, and the shorter remainder otherwise, never raising a truncation
error. -/
theorem c2_reads_at_most_size (file : Bytes) (idx : List (Bytes × Int))
    (fh : FileHeader) (nm : Bytes) (p sz : Int)
    (hnm : fh.file_name = .vstr nm) (hlk : lookupAssoc idx nm = some p)
    (hp : 0 ≤ p) (hsz : fh.size = .vint sz) (hsz0 : 0 ≤ sz) :
    get_file_bytes file idx fh = .ok ((file.drop (p.toNat + 512)).take sz.toNat) ∧
    ((file.drop (p.toNat + 512)).take sz.toNat).length =
      min sz.toNat (file.length - (p.toNat + 512)) := by
  have hstart : (p + 512).toNat = p.toNat + 512 := by omega
  constructor
  · simp only [get_file_bytes, hnm, hlk, hsz]
    rw [if_neg (by omega)]
    simp only [pyRead, if_neg (by omega : ¬sz < 0), hstart]
  · simp [List.length_take, List.length_drop]

/-- Witness for C2's amended theorem at the concrete truncated archive. -/
theorem c2_witness :
    get_file_bytes c2file c2idx c2fh = .ok ((c2file.drop ((0 : Int).toNat + 512)).take (10 : Int).toNat) ∧
    ((c2file.drop ((0 : Int).toNat + 512)).take (10 : Int).toNat).length =
      min (10 : Int).toNat (c2file.length - ((0 : Int).toNat + 512)) :=
  c2_reads_at_most_size c2file c2idx c2fh (strBytes ("a")) 0 10 (by decide) (by decide)
    (by decide) (by decide) (by decide)

/-- C9: extracting a regular-file entry always succeeds and leaves the
payload at `dest/name`, whether or not the destination already exists:
the source switches from `'xb'` to `'wb'` on pre-existence, so the
exclusive-create branch only runs when the path is absent. -/
theorem c9_extract_overwrites (file : Bytes) (idx : List (Bytes × Int)) (fs : FS)
    (dest : Bytes) (data : FileHeader) (nm payload : Bytes)
    (hnm : data.file_name = .vstr nm)
    (hty : data.file_type = .vstr (strBytes ("Regular file")))
    (hpl : get_file_bytes file idx data = .ok payload) :
    extract_entry file idx fs dest data =
      .ok ((dest ++ [47] ++ nm, .fileE payload) :: fs) ∧
    lookupAssoc ((dest ++ [47] ++ nm, .fileE payload) :: fs) (dest ++ [47] ++ nm) =
      some (.fileE payload) := by
  constructor
  · by_cases h : fsExists fs (dest ++ [47] ++ nm) = true <;>
      simp only [extract_entry, hnm, hty, hpl] <;>
      rw [if_neg (by decide)] <;>
      rw [if_pos (by decide)] <;>
      simp [h]
  · simp [lookupAssoc]

/-- Witness for C9 at a concrete archive whose destination file
pre-exists: the old content `[9]` is replaced by the 5 payload bytes. -/
theorem c9_witness :
    extract_entry (List.replicate 600 1) [(strBytes ("a"), 0)]
        [(strBytes ("d") ++ [47] ++ strBytes ("a"), FSEntry.fileE [9])]
        (strBytes ("d")) c9data =
      .ok ((strBytes ("d") ++ [47] ++ strBytes ("a"), FSEntry.fileE (List.replicate 5 1)) ::
           [(strBytes ("d") ++ [47] ++ strBytes ("a"), FSEntry.fileE [9])]) ∧
    lookupAssoc ((strBytes ("d") ++ [47] ++ strBytes ("a"), FSEntry.fileE (List.replicate 5 1)) ::
           [(strBytes ("d") ++ [47] ++ strBytes ("a"), FSEntry.fileE [9])])
        (strBytes ("d") ++ [47] ++ strBytes ("a")) = some (FSEntry.fileE (List.replicate 5 1)) :=
  c9_extract_overwrites (List.replicate 600 1) [(strBytes ("a"), 0)]
    [(strBytes ("d") ++ [47] ++ strBytes ("a"), FSEntry.fileE [9])] (strBytes ("d")) c9data
    (strBytes ("a")) (List.replicate 5 1) (by decide) (by decide) (by decide)

/-- Each loop iteration of the scan accounts for one fuel unit and yields
at most one name. -/
theorem scanGo_bounds (file : Bytes) :
    ∀ fuel pos w pend, (scanGo file fuel pos w pend).iters ≤ fuel ∧
      (scanGo file fuel pos w pend).names.length ≤ (scanGo file fuel pos w pend).iters := by
  intro fuel
  induction fuel with
  | zero => intro pos w pend; simp [scanGo]
  | succ n ih =>
    intro pos w pend
    simp only [scanGo]
    split
    · split
      · simp
      · have h := ih (pos + (fread file pos 512).length) true pend
        simp only []
        omega
    · split
      · have h := ih (pos + (fread file pos 512).length +
          (fread file (pos + (fread file pos 512).length) 512).length) false
          (some (stripNul (fread file (pos + (fread file pos 512).length) 512)))
        simp only []
        omega
      · split
        · simp
        · split
          · simp
          · rename_i v heq hlt
            have h := ih ((((pos + (fread file pos 512).length : Nat) : Int) +
                512 * ceilBlocks v).toNat) false
              (if isTruthy pend then ((pend.getD [], none) : Bytes × Option Bytes)
               else (stripNul ((fread file pos 512).take 100), pend)).2
            simp only [List.length_cons]
            omega

/-- C7: the reference scan performs at most the 1000 capped loop
iterations of `for i in range(1000)` on every archive (it is total by
construction, with the cap as fuel), and yields at most one entry per
iteration, so entries whose header blocks lie beyond the cap are never
yielded: the name list never exceeds 1000 entries. -/
theorem c7_scan_iteration_cap (file : Bytes) :
    (get_names file).iters ≤ 1000 ∧
    (get_names file).names.length ≤ (get_names file).iters ∧
    (get_names file).names.length ≤ 1000 := by
  have h := scanGo_bounds file 1000 0 false none
  exact ⟨h.1, h.2, le_trans h.2 h.1⟩

/-- C6, counterexample to the literal "for every archive" reading: for the
unaligned archive `cC6` (a size-0 header plus 100 stray zero bytes), the
one-trailing-zero-block variant yields the extra ghost name `""` (the
100 + 412 trailing zeros are read as one full zero block, then a short
88-zero-byte block that the scan treats as a header) before the size
parse raises, while the two-trailing-zero-block variant stops cleanly:
the ordered entry lists differ. -/
theorem c6_unaligned_counterexample :
    (get_names (cC6 ++ NULL_BLOCK)).names = [strBytes ("f"), []] ∧
    (get_names (cC6 ++ NULL_BLOCK ++ NULL_BLOCK)).names = [strBytes ("f")] ∧
    (get_names (cC6 ++ NULL_BLOCK)).names ≠
      (get_names (cC6 ++ NULL_BLOCK ++ NULL_BLOCK)).names := by
  refine ⟨by decide, by decide, by decide⟩

/-- Splitting a byte string yields one field per width. -/
theorem splitWidths_length (ws : List Nat) : ∀ b : Bytes, (splitWidths ws b).length = ws.length := by
  induction ws with
  | nil => intro b; simp [splitWidths]
  | cons w ws ih => intro b; simp [splitWidths, ih]

/-- The ten fixed-region fields of a full 512-byte block, by offset. -/
theorem unpackFmt1_eq (block : Bytes) (h : block.length = 512) :
    unpackFmt1 block = some [block.take 100, (block.drop 100).take 8, (block.drop 108).take 8,
      (block.drop 116).take 8, (block.drop 124).take 12, (block.drop 136).take 12,
      (block.drop 148).take 8, (block.drop 156).take 1, (block.drop 157).take 100,
      (block.drop 257).take 255] := by
  simp [unpackFmt1, h, splitWidths, List.drop_drop]

/-- On a ten-field unpacked block, `unpack_second_part` keeps the first
nine fields and appends the re-unpacked tail. -/
theorem usp_append (f0 f1 f2 f3 f4 f5 f6 f7 f8 tl : Bytes) :
    unpack_second_part [f0, f1, f2, f3, f4, f5, f6, f7, f8, tl] =
      [f0, f1, f2, f3, f4, f5, f6, f7, f8] ++ uspTail tl := by
  by_cases h : tl.take 6 = strBytes ("ustar ") <;>
    simp [unpack_second_part, uspTail, h, List.getLast?, List.dropLast]

/-- The tail re-unpack yields eight or nine fields. -/
theorem uspTail_length (tl : Bytes) :
    (uspTail tl).length = 8 ∨ (uspTail tl).length = 9 := by
  by_cases h : tl.take 6 = strBytes ("ustar ") <;>
    simp [uspTail, h, splitWidths_length]

/-- A tail that does not start with `b"ustar "` re-unpacks to nine fields. -/
theorem uspTail_length_not_ustar (tl : Bytes) (h : tl.take 6 ≠ strBytes ("ustar ")) :
    (uspTail tl).length = 9 := by
  simp [uspTail, h, splitWidths_length]

/-- One successful step of the octal re-decoding loop. -/
theorem decode_step (header : List Bytes) (decoded : List PyVal) (i : Nat) (is : List Nat)
    (hg : ¬ header.length < i) (v : Int)
    (hv : parseOctal (stripNul (header.getD i [])) = some v) :
    decode_to_int_from_octal header decoded (i :: is) =
      decode_to_int_from_octal header (decoded.set i (.vint v)) is := by
  simp only [decode_to_int_from_octal, if_neg hg]
  rw [hv]

/-- A failing step of the octal re-decoding loop raises `ValueError`. -/
theorem decode_step_err (header : List Bytes) (decoded : List PyVal) (i : Nat) (is : List Nat)
    (hg : ¬ header.length < i)
    (hv : parseOctal (stripNul (header.getD i [])) = none) :
    decode_to_int_from_octal header decoded (i :: is) = .error .valueError := by
  simp only [decode_to_int_from_octal, if_neg hg]
  rw [hv]

/-- The octal re-decoding loop returns the decoded list when done. -/
theorem decode_nil (header : List Bytes) (decoded : List PyVal) :
    decode_to_int_from_octal header decoded [] = .ok (some decoded) := rfl

/-- Reading an index just written by `List.set`. -/
theorem getD_set_self (l : List PyVal) (n : Nat) (a : PyVal) (d : PyVal) (h : n < l.length) :
    (l.set n a).getD n d = a := by
  simp [List.getD, List.getElem?_set_self, h]

/-- Decoding any full 512-byte block whose typeflag byte is `'9'` fails
with a `MalformedHeader`-class error: either a numeric field already
fails to parse as octal (`ValueError`), or the `_FILE_TYPES` lookup
raises `KeyError` - both before the record is built. -/
theorem gfd_unknown_typeflag (file : Bytes) (start : Int) (fn : Bytes)
    (h0 : 0 ≤ start) (hlen : (fread file start.toNat 512).length = 512)
    (htf : ((fread file start.toNat 512).drop 156).take 1 = [57]) :
    failsMalformed (get_file_data file start fn) = true := by
  have hnl : ¬ start < 0 := by omega
  simp only [get_file_data, if_neg hnl]
  rw [unpackFmt1_eq _ hlen]
  dsimp only
  rw [usp_append, htf]
  set B := fread file start.toNat 512 with hB
  set Hdr := [B.take 100, (B.drop 100).take 8, (B.drop 108).take 8,
    (B.drop 116).take 8, (B.drop 124).take 12, (B.drop 136).take 12,
    (B.drop 148).take 8, [57], (B.drop 157).take 100] ++
    uspTail ((B.drop 257).take 255) with hHdr
  have h17 : 17 ≤ Hdr.length := by
    rcases uspTail_length ((B.drop 257).take 255) with h | h <;> simp [hHdr, h]
  rcases e1 : parseOctal (stripNul ((B.drop 100).take 8)) with _ | v1
  · rw [decode_step_err Hdr _ 1 [2, 3, 4, 5] (by omega) e1]; rfl
  · rw [decode_step Hdr _ 1 [2, 3, 4, 5] (by omega) v1 e1]
    rcases e2 : parseOctal (stripNul ((B.drop 108).take 8)) with _ | v2
    · rw [decode_step_err Hdr _ 2 [3, 4, 5] (by omega) e2]; rfl
    · rw [decode_step Hdr _ 2 [3, 4, 5] (by omega) v2 e2]
      rcases e3 : parseOctal (stripNul ((B.drop 116).take 8)) with _ | v3
      · rw [decode_step_err Hdr _ 3 [4, 5] (by omega) e3]; rfl
      · rw [decode_step Hdr _ 3 [4, 5] (by omega) v3 e3]
        rcases e4 : parseOctal (stripNul ((B.drop 124).take 12)) with _ | v4
        · rw [decode_step_err Hdr _ 4 [5] (by omega) e4]; rfl
        · rw [decode_step Hdr _ 4 [5] (by omega) v4 e4]
          rcases e5 : parseOctal (stripNul ((B.drop 136).take 12)) with _ | v5
          · rw [decode_step_err Hdr _ 5 [] (by omega) e5]; rfl
          · rw [decode_step Hdr _ 5 [] (by omega) v5 e5, decode_nil]
            dsimp only
            rw [getD_set_self _ 5 _ _ (by simp only [List.length_set, List.length_map]; omega)]
            dsimp only
            rw [show Hdr.getD 7 ([] : Bytes) = [57] from rfl]
            rw [show lookupAssoc fileTypes [57] = none by decide]
            rfl

/-- An 18-value argument list makes the 17-field `FileHeader` constructor
raise `TypeError`. -/
theorem fromList_of_length_18 (l : List PyVal) (h : l.length = 18) :
    FileHeader.fromList l = none := by
  simp [FileHeader.fromList, h]

/-- Decoding a full 512-byte block whose tail does not start with
`b"ustar "` can never produce a record: `_HEADER_FMT3` yields nine tail
fields, so 18 values reach the 17-field `FileHeader` constructor and, if
no field error strikes first, construction itself raises `TypeError`. -/
theorem gfd_not_ustar_never_ok (file : Bytes) (start : Int) (fn : Bytes)
    (h0 : 0 ≤ start) (hlen : (fread file start.toNat 512).length = 512)
    (hm : ((fread file start.toNat 512).drop 257).take 6 ≠ strBytes ("ustar ")) :
    exceptIsOk (get_file_data file start fn) = false := by
  have hnl : ¬ start < 0 := by omega
  have hm' : (((fread file start.toNat 512).drop 257).take 255).take 6 ≠ strBytes ("ustar ") := by
    rw [List.take_take]
    simpa using hm
  simp only [get_file_data, if_neg hnl]
  rw [unpackFmt1_eq _ hlen]
  dsimp only
  rw [usp_append]
  set B := fread file start.toNat 512 with hB
  set Hdr := [B.take 100, (B.drop 100).take 8, (B.drop 108).take 8,
    (B.drop 116).take 8, (B.drop 124).take 12, (B.drop 136).take 12,
    (B.drop 148).take 8, (B.drop 156).take 1, (B.drop 157).take 100] ++
    uspTail ((B.drop 257).take 255) with hHdr
  have h18 : Hdr.length = 18 := by
    simp [hHdr, uspTail_length_not_ustar _ hm']
  have h17 : 17 ≤ Hdr.length := by omega
  rcases e1 : parseOctal (stripNul ((B.drop 100).take 8)) with _ | v1
  · rw [decode_step_err Hdr _ 1 [2, 3, 4, 5] (by omega) e1]; rfl
  · rw [decode_step Hdr _ 1 [2, 3, 4, 5] (by omega) v1 e1]
    rcases e2 : parseOctal (stripNul ((B.drop 108).take 8)) with _ | v2
    · rw [decode_step_err Hdr _ 2 [3, 4, 5] (by omega) e2]; rfl
    · rw [decode_step Hdr _ 2 [3, 4, 5] (by omega) v2 e2]
      rcases e3 : parseOctal (stripNul ((B.drop 116).take 8)) with _ | v3
      · rw [decode_step_err Hdr _ 3 [4, 5] (by omega) e3]; rfl
      · rw [decode_step Hdr _ 3 [4, 5] (by omega) v3 e3]
        rcases e4 : parseOctal (stripNul ((B.drop 124).take 12)) with _ | v4
        · rw [decode_step_err Hdr _ 4 [5] (by omega) e4]; rfl
        · rw [decode_step Hdr _ 4 [5] (by omega) v4 e4]
          rcases e5 : parseOctal (stripNul ((B.drop 136).take 12)) with _ | v5
          · rw [decode_step_err Hdr _ 5 [] (by omega) e5]; rfl
          · rw [decode_step Hdr _ 5 [] (by omega) v5 e5, decode_nil]
            dsimp only
            rw [getD_set_self _ 5 _ _ (by simp only [List.length_set, List.length_map]; omega)]
            dsimp only
            rcases elk : lookupAssoc fileTypes (Hdr.getD 7 []) with _ | t
            · rfl
            · dsimp only
              rw [fromList_of_length_18 _ (by
                simp only [List.length_set, List.length_map]
                exact h18)]
              rfl

/-- C1: the pre-ustar tail layout never decodes.  For every 512-byte
header block whose tail does not begin with `b"ustar "`, `get_file_data`
never returns a `HeaderRecord` - `_HEADER_FMT3` produces nine tail
fields, so the 17-field `FileHeader` constructor is called with 18
values - and on a well-formed pre-ustar block (concretely `preHdr`) the
failure is the constructor's `TypeError`, which is not a
`MalformedHeader`-class decode error.  This contradicts the claim that
such blocks decode to a record or fail only with `MalformedHeader`. -/
theorem c1_pre_ustar_never_decodes :
    (∀ (file : Bytes) (start : Int) (fn : Bytes),
        0 ≤ start → (fread file start.toNat 512).length = 512 →
        ((fread file start.toNat 512).drop 257).take 6 ≠ strBytes ("ustar ") →
        exceptIsOk (get_file_data file start fn) = false) ∧
    get_file_data preHdr 0 (strBytes ("f")) = .error .typeError ∧
    isMalformed .typeError = false :=
  ⟨fun file start fn h0 hlen hm => gfd_not_ustar_never_ok file start fn h0 hlen hm,
   by decide, by decide⟩

/-- Witness: the universal part of C1's theorem applied to the concrete
pre-ustar block `preHdr`. -/
theorem c1_witness :
    exceptIsOk (get_file_data preHdr 0 (strBytes ("f"))) = false ∧
    get_file_data preHdr 0 (strBytes ("f")) = .error .typeError :=
  ⟨c1_pre_ustar_never_decodes.1 preHdr 0 (strBytes ("f")) (by decide) (by decide) (by decide),
   c1_pre_ustar_never_decodes.2.1⟩

/-- C8: `stat` on an indexed entry whose header block carries the
unrecognized typeflag byte `'9'` fails with a `MalformedHeader`-class
error (the `_FILE_TYPES` lookup miss, or already a bad octal field),
never with a success or any other error class. -/
theorem c8_unknown_typeflag_malformed (file : Bytes) (idx : List (Bytes × Int))
    (nm : Bytes) (p : Int)
    (hlk : lookupAssoc idx nm = some p) (hp : 0 ≤ p)
    (hlen : (fread file p.toNat 512).length = 512)
    (htf : ((fread file p.toNat 512).drop 156).take 1 = [57]) :
    failsMalformed (file_stat file idx nm) = true := by
  have h := gfd_unknown_typeflag file p nm hp hlen htf
  simp only [file_stat, hlk]
  rcases e : get_file_data file p nm with e' | fh
  · rw [e] at h
    exact h
  · rw [e] at h
    simp [failsMalformed] at h

/-- Witness for C8 at the concrete archive `hdr9` whose single entry has
typeflag byte `'9'`. -/
theorem c8_witness :
    failsMalformed (file_stat hdr9 [(strBytes ("f"), 0)] (strBytes ("f"))) = true :=
  c8_unknown_typeflag_malformed hdr9 [(strBytes ("f"), 0)] (strBytes ("f")) 0
    (by decide) (by decide) (by decide) (by decide)

theorem fread_after (pre post : Bytes) (pos n : Nat) (h : pos = pre.length) :
    fread (pre ++ post) pos n = post.take n := by
  subst h; simp [fread, List.drop_left]

theorem scanGo_stop_zero (file : Bytes) (fuel pos : Nat) (pend : Option Bytes)
    (h : fread file pos 512 = NULL_BLOCK) :
    scanGo file (fuel + 1) pos true pend = ⟨[], [], true, 1⟩ := by
  simp only [scanGo, h]
  simp

theorem scanGo_stop_eof (file : Bytes) (fuel pos : Nat) (w : Bool) (pend : Option Bytes)
    (h : fread file pos 512 = []) :
    scanGo file (fuel + 1) pos w pend = ⟨[], [], true, 1⟩ := by
  simp only [scanGo, h]
  simp

theorem scanGo_cont_zero (file : Bytes) (fuel pos : Nat) (pend : Option Bytes)
    (h : fread file pos 512 = NULL_BLOCK) :
    scanGo file (fuel + 1) pos false pend =
      ⟨(scanGo file fuel (pos + 512) true pend).names,
       (scanGo file fuel (pos + 512) true pend).index,
       (scanGo file fuel (pos + 512) true pend).ok,
       (scanGo file fuel (pos + 512) true pend).iters + 1⟩ := by
  simp only [scanGo, h]
  simp [NULL_BLOCK]

theorem scanGo_long_step (file : Bytes) (fuel pos : Nat) (w : Bool) (pend : Option Bytes)
    (blk pl : Bytes) (hb : fread file pos 512 = blk)
    (hnull : blk ≠ NULL_BLOCK) (hne : blk ≠ [])
    (hL : (blk.drop 156).take 1 = [76])
    (hp : fread file (pos + blk.length) 512 = pl) :
    scanGo file (fuel + 1) pos w pend =
      ⟨(scanGo file fuel (pos + blk.length + pl.length) false (some (stripNul pl))).names,
       (scanGo file fuel (pos + blk.length + pl.length) false (some (stripNul pl))).index,
       (scanGo file fuel (pos + blk.length + pl.length) false (some (stripNul pl))).ok,
       (scanGo file fuel (pos + blk.length + pl.length) false (some (stripNul pl))).iters + 1⟩ := by
  simp only [scanGo, hb, hp, hL]
  simp [hnull, hne]

theorem scanGo_name_parse_err (file : Bytes) (fuel pos : Nat) (w : Bool) (pend : Option Bytes)
    (blk : Bytes) (hb : fread file pos 512 = blk)
    (hnull : blk ≠ NULL_BLOCK) (hne : blk ≠ [])
    (hL : (blk.drop 156).take 1 ≠ [76])
    (hsz : parseOctal (stripNul ((blk.drop 124).take 12)) = none) :
    scanGo file (fuel + 1) pos w pend =
      ⟨[(if isTruthy pend then (pend.getD [], none) else (stripNul (blk.take 100), pend)).1],
       [((if isTruthy pend then (pend.getD [], none) else (stripNul (blk.take 100), pend)).1,
         ((pos + blk.length : Nat) : Int) - 512)], false, 1⟩ := by
  simp only [scanGo, hb, hsz]
  simp [hnull, hne, hL]

theorem scanGo_name_seek_err (file : Bytes) (fuel pos : Nat) (w : Bool) (pend : Option Bytes)
    (blk : Bytes) (sz : Int) (hb : fread file pos 512 = blk)
    (hnull : blk ≠ NULL_BLOCK) (hne : blk ≠ [])
    (hL : (blk.drop 156).take 1 ≠ [76])
    (hsz : parseOctal (stripNul ((blk.drop 124).take 12)) = some sz)
    (htgt : (pos : Int) + (blk.length : Int) + 512 * ceilBlocks sz < 0) :
    scanGo file (fuel + 1) pos w pend =
      ⟨[(if isTruthy pend then (pend.getD [], none) else (stripNul (blk.take 100), pend)).1],
       [((if isTruthy pend then (pend.getD [], none) else (stripNul (blk.take 100), pend)).1,
         ((pos + blk.length : Nat) : Int) - 512)], false, 1⟩ := by
  simp only [scanGo, hb, hsz]
  simp [hnull, hne, hL, htgt]

theorem scanGo_name_go (file : Bytes) (fuel pos : Nat) (w : Bool) (pend : Option Bytes)
    (blk : Bytes) (sz : Int) (hb : fread file pos 512 = blk)
    (hnull : blk ≠ NULL_BLOCK) (hne : blk ≠ [])
    (hL : (blk.drop 156).take 1 ≠ [76])
    (hsz : parseOctal (stripNul ((blk.drop 124).take 12)) = some sz)
    (htgt : ¬ (pos : Int) + (blk.length : Int) + 512 * ceilBlocks sz < 0) :
    scanGo file (fuel + 1) pos w pend =
      ⟨(if isTruthy pend then (pend.getD [], none) else (stripNul (blk.take 100), pend)).1 ::
         (scanGo file fuel (((pos : Int) + (blk.length : Int) + 512 * ceilBlocks sz).toNat) false
           (if isTruthy pend then (pend.getD [], none) else (stripNul (blk.take 100), pend)).2).names,
       (scanGo file fuel (((pos : Int) + (blk.length : Int) + 512 * ceilBlocks sz).toNat) false
           (if isTruthy pend then (pend.getD [], none) else (stripNul (blk.take 100), pend)).2).index ++
         [((if isTruthy pend then (pend.getD [], none) else (stripNul (blk.take 100), pend)).1,
           ((pos + blk.length : Nat) : Int) - 512)],
       (scanGo file fuel (((pos : Int) + (blk.length : Int) + 512 * ceilBlocks sz).toNat) false
           (if isTruthy pend then (pend.getD [], none) else (stripNul (blk.take 100), pend)).2).ok,
       (scanGo file fuel (((pos : Int) + (blk.length : Int) + 512 * ceilBlocks sz).toNat) false
           (if isTruthy pend then (pend.getD [], none) else (stripNul (blk.take 100), pend)).2).iters + 1⟩ := by
  simp only [scanGo, hb, hsz]
  simp [hnull, hne, hL, htgt]


theorem padZ_length (n : Nat) (l : Bytes) (h : l.length ≤ n) : (padZ n l).length = n := by
  simp [padZ]; omega

theorem dropWhile_zero_replicate (k : Nat) (y : Bytes) :
    (List.replicate k 0 ++ y).dropWhile (fun x => x == 0) = y.dropWhile (fun x => x == 0) := by
  induction k with
  | zero => simp
  | succ n ih =>
    rw [List.replicate_succ]
    simp only [List.cons_append, List.dropWhile]
    simp

theorem stripNul_append_zeros (l : Bytes) (k : Nat) :
    stripNul (l ++ List.replicate k 0) = stripNul l := by
  unfold stripNul
  rw [List.dropWhile_append]
  rcases hd : l.dropWhile (fun x => x == 0) with _ | ⟨a, t⟩
  · have h1 : (List.replicate k 0).dropWhile (fun x => x == 0) = [] := by
      simp
    simp [h1]
  · rw [if_neg (by simp)]
    rw [List.reverse_append, List.reverse_replicate, dropWhile_zero_replicate]

theorem stripNul_padZ (n : Nat) (l : Bytes) : stripNul (padZ n l) = stripNul l :=
  stripNul_append_zeros l (n - l.length)

theorem scan_long_family (p nm : Bytes) (hp : p.length = 512) (hnm : nm.length ≤ 100) :
    (get_names (LBLK ++ p ++ mkScanHeader nm (strBytes ("0")) 48 ++ NULL_BLOCK ++ NULL_BLOCK)).names =
      [if stripNul p = [] then stripNul nm else stripNul p] ∧
    (get_names (LBLK ++ p ++ mkScanHeader nm (strBytes ("0")) 48 ++ NULL_BLOCK ++ NULL_BLOCK)).index =
      [(if stripNul p = [] then stripNul nm else stripNul p, (1024 : Int))] := by
  set H := mkScanHeader nm (strBytes ("0")) 48 with hH
  set file := LBLK ++ p ++ H ++ NULL_BLOCK ++ NULL_BLOCK with hfile
  have hLlen : LBLK.length = 512 := by decide
  have hP100 : (padZ 100 nm).length = 100 := padZ_length 100 nm hnm
  have h12 : (padZ 12 (strBytes ("0"))).length = 12 := by decide
  have hHlen : H.length = 512 := by
    simp [hH, mkScanHeader, hP100, h12]
  -- the header block re-associated around each interesting offset
  have hassoc1 : file = (LBLK ++ p) ++ (H ++ (NULL_BLOCK ++ NULL_BLOCK)) := by
    simp [hfile, List.append_assoc]
  have hassoc2 : file = ((LBLK ++ p) ++ H) ++ (NULL_BLOCK ++ NULL_BLOCK) := by
    simp [hfile, List.append_assoc]
  have hassoc3 : file = (((LBLK ++ p) ++ H) ++ NULL_BLOCK) ++ NULL_BLOCK := by
    simp [hfile, List.append_assoc]
  have hHassoc1 : H = (padZ 100 nm ++ List.replicate 24 0) ++
      (padZ 12 (strBytes ("0")) ++ (List.replicate 20 0 ++ ([48] ++ List.replicate 355 0))) := by
    simp [hH, mkScanHeader, List.append_assoc]
  have hHassoc2 : H = (padZ 100 nm ++ List.replicate 24 0 ++ padZ 12 (strBytes ("0")) ++
      List.replicate 20 0) ++ ([48] ++ List.replicate 355 0) := by
    simp [hH, mkScanHeader, List.append_assoc]
  -- field slices of the header block
  have h156 : (H.drop 156).take 1 = [48] := by
    rw [hHassoc2]
    rw [List.drop_left' (by simp [hP100, h12])]
    rfl
  have hszSlice : (H.drop 124).take 12 = padZ 12 (strBytes ("0")) := by
    rw [hHassoc1]
    rw [List.drop_left' (by simp [hP100])]
    exact List.take_left' h12
  have hHassoc0 : H = padZ 100 nm ++ (List.replicate 24 0 ++ (padZ 12 (strBytes ("0")) ++
      (List.replicate 20 0 ++ ([48] ++ List.replicate 355 0)))) := by
    simp [hH, mkScanHeader, List.append_assoc]
  have hname : H.take 100 = padZ 100 nm := by
    rw [hHassoc0]
    exact List.take_left' hP100
  have hA0 : file = LBLK ++ (p ++ (H ++ (NULL_BLOCK ++ NULL_BLOCK))) := by
    simp [hfile, List.append_assoc]
  have hr0 : fread file 0 512 = LBLK := by
    rw [hA0]
    show (List.drop 0 _).take 512 = _
    rw [List.drop_zero]
    exact List.take_left' hLlen
  have hr512 : fread file (0 + LBLK.length) 512 = p := by
    rw [hA0, fread_after LBLK _ _ 512 (by simp)]
    exact List.take_left' hp
  have hr1024 : fread file 1024 512 = H := by
    rw [hassoc1, fread_after _ _ 1024 512 (by simp [hLlen, hp])]
    exact List.take_left' hHlen
  have hr1536 : fread file 1536 512 = NULL_BLOCK := by
    rw [hassoc2, fread_after _ _ 1536 512 (by simp [hLlen, hp, hHlen])]
    exact List.take_left' (by decide)
  have hr2048 : fread file 2048 512 = NULL_BLOCK := by
    rw [hassoc3, fread_after _ _ 2048 512 (by simp [hLlen, hp, hHlen, NULL_BLOCK])]
    decide
  have hHnull : H ≠ NULL_BLOCK := by
    intro hcon
    rw [hcon] at h156
    exact absurd h156 (by decide)
  have hHne : H ≠ [] := by
    intro hcon
    rw [hcon] at hHlen
    simp at hHlen
  have hHL : (H.drop 156).take 1 ≠ [76] := by
    rw [h156]; decide
  have hHsz : parseOctal (stripNul ((H.drop 124).take 12)) = some 0 := by
    rw [hszSlice]; decide
  have htgt : ¬ ((1024 : Nat) : Int) + (H.length : Int) + 512 * ceilBlocks 0 < 0 := by
    rw [hHlen]; decide
  have hscan : get_names file = ⟨[if stripNul p = [] then stripNul nm else stripNul p],
      [(if stripNul p = [] then stripNul nm else stripNul p, (1024 : Int))], true, 4⟩ := by
    rw [get_names]
    rw [show (1000 : Nat) = 999 + 1 from rfl]
    rw [scanGo_long_step file 999 0 false none LBLK p hr0 (by decide) (by decide) (by decide) hr512]
    rw [show 0 + LBLK.length + p.length = 1024 by simp [hLlen, hp]]
    rw [show (999 : Nat) = 998 + 1 from rfl]
    rw [scanGo_name_go file 998 1024 false (some (stripNul p)) H 0 hr1024 hHnull hHne hHL hHsz htgt]
    rw [show (((1024 : Nat) : Int) + (H.length : Int) + 512 * ceilBlocks 0).toNat = 1536 by
      rw [hHlen]; decide]
    rw [show (998 : Nat) = 997 + 1 from rfl]
    rw [scanGo_cont_zero file 997 1536 _ hr1536]
    rw [show (1536 : Nat) + 512 = 2048 from rfl]
    rw [show (997 : Nat) = 996 + 1 from rfl]
    rw [scanGo_stop_zero file 996 2048 _ hr2048]
    by_cases hpe : stripNul p = [] <;>
      simp [isTruthy, hpe, hname, stripNul_padZ, hHlen]
  exact ⟨by rw [hscan], by rw [hscan]⟩

/-- C5: a GNU long-pathname block (typeflag `'L'`) followed by its payload
block and a real header makes the scan yield and index the entry under the
NUL-stripped long name from the payload block (at the real header's
offset 1024), and `stat` on the NUL-stripped 100-byte name field of the
real header itself fails with the `UnknownEntry` lookup error. -/
theorem c5_long_name_indexed (p nm : Bytes) (hp : p.length = 512) (hnm : nm.length ≤ 100)
    (hpe : stripNul p ≠ []) (hdiff : stripNul nm ≠ stripNul p) :
    (get_names (LBLK ++ p ++ mkScanHeader nm (strBytes ("0")) 48 ++
        NULL_BLOCK ++ NULL_BLOCK)).names = [stripNul p] ∧
    lookupAssoc (get_names (LBLK ++ p ++ mkScanHeader nm (strBytes ("0")) 48 ++
        NULL_BLOCK ++ NULL_BLOCK)).index (stripNul p) = some 1024 ∧
    file_stat (LBLK ++ p ++ mkScanHeader nm (strBytes ("0")) 48 ++ NULL_BLOCK ++ NULL_BLOCK)
        (get_names (LBLK ++ p ++ mkScanHeader nm (strBytes ("0")) 48 ++
          NULL_BLOCK ++ NULL_BLOCK)).index (stripNul nm) = .error .keyErrorIndex := by
  obtain ⟨h1, h2⟩ := scan_long_family p nm hp hnm
  rw [if_neg hpe] at h1 h2
  refine ⟨h1, ?_, ?_⟩
  · rw [h2]
    simp [lookupAssoc]
  · rw [h2]
    simp only [file_stat, lookupAssoc]
    rw [if_neg (fun hcon => hdiff hcon.symm)]

/-- Witness for C5: a 120-byte name of `'a'`s in the payload block, a
real header whose own name field says `"short"`. -/
theorem c5_witness :
    (get_names (LBLK ++ padZ 512 (List.replicate 120 97) ++
        mkScanHeader (strBytes ("short")) (strBytes ("0")) 48 ++
        NULL_BLOCK ++ NULL_BLOCK)).names = [stripNul (padZ 512 (List.replicate 120 97))] ∧
    lookupAssoc (get_names (LBLK ++ padZ 512 (List.replicate 120 97) ++
        mkScanHeader (strBytes ("short")) (strBytes ("0")) 48 ++
        NULL_BLOCK ++ NULL_BLOCK)).index (stripNul (padZ 512 (List.replicate 120 97))) = some 1024 ∧
    file_stat (LBLK ++ padZ 512 (List.replicate 120 97) ++
        mkScanHeader (strBytes ("short")) (strBytes ("0")) 48 ++ NULL_BLOCK ++ NULL_BLOCK)
        (get_names (LBLK ++ padZ 512 (List.replicate 120 97) ++
          mkScanHeader (strBytes ("short")) (strBytes ("0")) 48 ++
          NULL_BLOCK ++ NULL_BLOCK)).index (stripNul (strBytes ("short"))) =
      .error .keyErrorIndex :=
  c5_long_name_indexed (padZ 512 (List.replicate 120 97)) (strBytes ("short"))
    (by decide) (by decide) (by decide) (by decide)

/-- C10: when the payload block after a typeflag-`'L'` block is all NUL
bytes, the pending long name is the empty string, which is falsy in the
`if long_link_name:` test, so the following real header is yielded and
indexed under its own NUL-stripped 100-byte name field. -/
theorem c10_empty_long_name_falsy (nm : Bytes) (hnm : nm.length ≤ 100) :
    (get_names (LBLK ++ NULL_BLOCK ++ mkScanHeader nm (strBytes ("0")) 48 ++
        NULL_BLOCK ++ NULL_BLOCK)).names = [stripNul nm] ∧
    lookupAssoc (get_names (LBLK ++ NULL_BLOCK ++ mkScanHeader nm (strBytes ("0")) 48 ++
        NULL_BLOCK ++ NULL_BLOCK)).index (stripNul nm) = some 1024 := by
  obtain ⟨h1, h2⟩ := scan_long_family NULL_BLOCK nm (by decide) hnm
  rw [if_pos (by decide)] at h1 h2
  refine ⟨h1, ?_⟩
  rw [h2]
  simp [lookupAssoc]

/-- Witness for C10: the real header's own name `"short"` is used when
the long-name payload block is all NULs. -/
theorem c10_witness :
    (get_names (LBLK ++ NULL_BLOCK ++ mkScanHeader (strBytes ("short")) (strBytes ("0")) 48 ++
        NULL_BLOCK ++ NULL_BLOCK)).names = [stripNul (strBytes ("short"))] ∧
    lookupAssoc (get_names (LBLK ++ NULL_BLOCK ++
        mkScanHeader (strBytes ("short")) (strBytes ("0")) 48 ++
        NULL_BLOCK ++ NULL_BLOCK)).index (stripNul (strBytes ("short"))) = some 1024 :=
  c10_empty_long_name_falsy (strBytes ("short")) (by decide)

theorem fread_eq_nil (file : Bytes) (pos : Nat) (h : file.length ≤ pos) :
    fread file pos 512 = [] := by
  simp [fread, List.drop_eq_nil_of_le h]

theorem fread_pad_eq (c : Bytes) (pos : Nat) (h : pos ≤ c.length) :
    fread (c ++ NULL_BLOCK ++ NULL_BLOCK) pos 512 = fread (c ++ NULL_BLOCK) pos 512 := by
  show ((c ++ NULL_BLOCK ++ NULL_BLOCK).drop pos).take 512 = ((c ++ NULL_BLOCK).drop pos).take 512
  rw [List.drop_append_eq_append_drop]
  rw [show pos - (c ++ NULL_BLOCK).length = 0 by simp [NULL_BLOCK]; omega]
  rw [List.drop_zero]
  rw [List.take_append_of_le_length (by simp [NULL_BLOCK]; omega)]

theorem fread_at_boundary (c : Bytes) : fread (c ++ NULL_BLOCK) c.length 512 = NULL_BLOCK := by
  rw [fread_after c NULL_BLOCK _ 512 rfl]
  decide

theorem scan_zero_region (file : Bytes) (bound : Nat)
    (hreads : ∀ pos : Nat, 512 ∣ pos → bound ≤ pos →
        fread file pos 512 = NULL_BLOCK ∨ fread file pos 512 = []) :
    ∀ fuel pos (w : Bool) pend, 512 ∣ pos → bound ≤ pos →
      (scanGo file fuel pos w pend).names = [] := by
  intro fuel
  induction fuel with
  | zero => intro pos w pend _ _; simp [scanGo]
  | succ m ih =>
    intro pos w pend hd hb
    rcases hreads pos hd hb with h | h
    · cases w with
      | true => rw [scanGo_stop_zero file m pos pend h]
      | false =>
        rw [scanGo_cont_zero file m pos pend h]
        exact ih (pos + 512) true pend (by omega) (by omega)
    · rw [scanGo_stop_eof file m pos w pend h]

theorem scan_names_pad_eq (c : Bytes) (hc : 512 ∣ c.length) :
    ∀ fuel pos (w : Bool) pend, 512 ∣ pos →
      (scanGo (c ++ NULL_BLOCK) fuel pos w pend).names =
      (scanGo (c ++ NULL_BLOCK ++ NULL_BLOCK) fuel pos w pend).names := by
  intro fuel
  induction fuel with
  | zero => intro pos w pend _; simp [scanGo]
  | succ m ih =>
    intro pos w pend hd
    by_cases hpn : pos ≤ c.length
    · -- within the shared region: the two files show the same block
      have hbeq : fread (c ++ NULL_BLOCK ++ NULL_BLOCK) pos 512 =
          fread (c ++ NULL_BLOCK) pos 512 := fread_pad_eq c pos hpn
      have hlen : (fread (c ++ NULL_BLOCK) pos 512).length = 512 := by
        simp [fread, NULL_BLOCK]
        omega
      by_cases hz : fread (c ++ NULL_BLOCK) pos 512 = NULL_BLOCK
      · cases w with
        | true =>
          rw [scanGo_stop_zero _ m _ _ hz, scanGo_stop_zero _ m _ _ (hbeq.trans hz)]
        | false =>
          rw [scanGo_cont_zero _ m _ _ hz, scanGo_cont_zero _ m _ _ (hbeq.trans hz)]
          exact ih (pos + 512) true pend (by omega)
      · have hnil : fread (c ++ NULL_BLOCK) pos 512 ≠ [] := by
          intro hcon
          rw [hcon] at hlen
          simp at hlen
        have hlt : pos < c.length := by
          rcases Nat.lt_or_ge pos c.length with h | h
          · exact h
          · exfalso
            have he : pos = c.length := by omega
            rw [he] at hz
            exact hz (fread_at_boundary c)
        have hnext : pos + 512 ≤ c.length := by omega
        by_cases hL : ((fread (c ++ NULL_BLOCK) pos 512).drop 156).take 1 = [76]
        · have hplB : fread (c ++ NULL_BLOCK ++ NULL_BLOCK)
              (pos + (fread (c ++ NULL_BLOCK) pos 512).length) 512 =
              fread (c ++ NULL_BLOCK) (pos + (fread (c ++ NULL_BLOCK) pos 512).length) 512 := by
            rw [hlen]
            exact fread_pad_eq c (pos + 512) hnext
          have hpla : (fread (c ++ NULL_BLOCK)
              (pos + (fread (c ++ NULL_BLOCK) pos 512).length) 512).length = 512 := by
            rw [hlen]
            simp [fread, NULL_BLOCK]
            omega
          rw [scanGo_long_step (c ++ NULL_BLOCK) m pos w pend _ _ rfl hz hnil hL rfl,
              scanGo_long_step (c ++ NULL_BLOCK ++ NULL_BLOCK) m pos w pend _ _ hbeq hz hnil hL hplB]
          exact ih _ false _ (by omega)
        · rcases hszp : parseOctal (stripNul (((fread (c ++ NULL_BLOCK) pos 512).drop 124).take 12))
            with _ | sz
          · rw [scanGo_name_parse_err (c ++ NULL_BLOCK) m pos w pend _ rfl hz hnil hL hszp,
                scanGo_name_parse_err (c ++ NULL_BLOCK ++ NULL_BLOCK) m pos w pend _ hbeq hz hnil hL hszp]
          · by_cases htg : (pos : Int) + ((fread (c ++ NULL_BLOCK) pos 512).length : Int) +
                512 * ceilBlocks sz < 0
            · rw [scanGo_name_seek_err (c ++ NULL_BLOCK) m pos w pend _ sz rfl hz hnil hL hszp htg,
                  scanGo_name_seek_err (c ++ NULL_BLOCK ++ NULL_BLOCK) m pos w pend _ sz hbeq hz hnil hL hszp htg]
            · rw [scanGo_name_go (c ++ NULL_BLOCK) m pos w pend _ sz rfl hz hnil hL hszp htg,
                  scanGo_name_go (c ++ NULL_BLOCK ++ NULL_BLOCK) m pos w pend _ sz hbeq hz hnil hL hszp htg]
              simp only [List.cons.injEq, true_and]
              exact ih _ false _ (by omega)
    · -- past the content region: both scans yield nothing
      have hrA : ∀ q : Nat, 512 ∣ q → c.length + 512 ≤ q →
          fread (c ++ NULL_BLOCK) q 512 = NULL_BLOCK ∨
          fread (c ++ NULL_BLOCK) q 512 = [] :=
        fun q _ hq => Or.inr (fread_eq_nil _ _ (by simp [NULL_BLOCK]; omega))
      have hrB : ∀ q : Nat, 512 ∣ q → c.length + 512 ≤ q →
          fread (c ++ NULL_BLOCK ++ NULL_BLOCK) q 512 = NULL_BLOCK ∨
          fread (c ++ NULL_BLOCK ++ NULL_BLOCK) q 512 = [] := by
        intro q hqd hq
        rcases (show q = c.length + 512 ∨ c.length + 1024 ≤ q by omega) with he | hge2
        · left
          rw [he, show c.length + 512 = (c ++ NULL_BLOCK).length by simp [NULL_BLOCK]]
          rw [fread_after (c ++ NULL_BLOCK) NULL_BLOCK _ 512 rfl]
          decide
        · right
          exact fread_eq_nil _ _ (by simp [NULL_BLOCK]; omega)
      rw [scan_zero_region (c ++ NULL_BLOCK) (c.length + 512) hrA (m + 1) pos w pend hd (by omega),
          scan_zero_region (c ++ NULL_BLOCK ++ NULL_BLOCK) (c.length + 512) hrB (m + 1) pos w pend hd (by omega)]


/-- C6: end-of-archive handling.  (i) A zero block read while the
previous block was already zero ends the scan with nothing further
yielded; (ii) reading at or past physical end-of-file ends the scan;
(iii) a single isolated zero block is skipped and scanning continues
with the first-zero flag set; and (iv) - amended - for every archive
that is a whole number of 512-byte blocks, ending in one trailing zero
block yields the identical ordered entry list as ending in two.  The
restriction of (iv) to block-aligned archives is forced by
`c6_unaligned_counterexample`. -/
theorem c6_zero_block_termination :
    (∀ (file : Bytes) (fuel pos : Nat) (pend : Option Bytes),
        fread file pos 512 = NULL_BLOCK →
        scanGo file (fuel + 1) pos true pend = ⟨[], [], true, 1⟩) ∧
    (∀ (file : Bytes) (fuel pos : Nat) (w : Bool) (pend : Option Bytes),
        fread file pos 512 = [] →
        scanGo file (fuel + 1) pos w pend = ⟨[], [], true, 1⟩) ∧
    (∀ (file : Bytes) (fuel pos : Nat) (pend : Option Bytes),
        fread file pos 512 = NULL_BLOCK →
        (scanGo file (fuel + 1) pos false pend).names =
          (scanGo file fuel (pos + 512) true pend).names) ∧
    (∀ c : Bytes, 512 ∣ c.length →
        (get_names (c ++ NULL_BLOCK)).names =
          (get_names (c ++ NULL_BLOCK ++ NULL_BLOCK)).names) :=
  ⟨fun file fuel pos pend h => scanGo_stop_zero file fuel pos pend h,
   fun file fuel pos w pend h => scanGo_stop_eof file fuel pos w pend h,
   fun file fuel pos pend h => by rw [scanGo_cont_zero file fuel pos pend h],
   fun c hc => scan_names_pad_eq c hc 1000 0 false none (by omega)⟩

/-- Witness for C6 at concrete archives: a lone zero block with the flag
set stops; the empty file stops; a zero block before a header is skipped;
and the one-entry archive `ustarHdr` parses identically with one or two
trailing zero blocks. -/
theorem c6_witness :
    scanGo NULL_BLOCK (0 + 1) 0 true none = ⟨[], [], true, 1⟩ ∧
    scanGo ([] : Bytes) (0 + 1) 0 false none = ⟨[], [], true, 1⟩ ∧
    (scanGo (NULL_BLOCK ++ ustarHdr) (1 + 1) 0 false none).names =
      (scanGo (NULL_BLOCK ++ ustarHdr) 1 (0 + 512) true none).names ∧
    (get_names (ustarHdr ++ NULL_BLOCK)).names =
      (get_names (ustarHdr ++ NULL_BLOCK ++ NULL_BLOCK)).names :=
  ⟨c6_zero_block_termination.1 NULL_BLOCK 0 0 none (by decide),
   c6_zero_block_termination.2.1 [] 0 0 false none (by decide),
   c6_zero_block_termination.2.2.1 (NULL_BLOCK ++ ustarHdr) 1 0 none (by decide),
   c6_zero_block_termination.2.2.2 ustarHdr (by decide)⟩

end Untar
